import Mathlib

/-!
Shallow embedding of `holographic_kernel.c` (repository rainmanp7/holokernel-EBOGS).

Conventions of the embedding:
* 32-bit unsigned machine arithmetic is `Nat` with explicit `% 2^32`
  (resp. `% 2^31` for the LCG mask `& 0x7fffffff`).
* A `HolographicVector.data` component is modeled by the exact integer
  numerator that the C code divides by `1000.0f`.  In the source the
  expression `(seed % 2000) - 1000` is evaluated in `uint32_t` arithmetic
  (it wraps for `seed % 2000 < 1000`), so the numerator is
  `((seed % 2000) - 1000) mod 2^32`.  The float `numerator / 1000.0f` is
  zero exactly when the numerator is zero, copies of components stay equal,
  and C float negation maps the value of numerator `n` to the value of `-n`;
  those are the only facts about components the claims below use, and they
  are preserved exactly by this integer model.
* The single global `holo_system.global_timestamp` is carried as the `ts`
  field of the explicit state; `encode_holographic_memory` post-increments it.
* The entity arena `entity_pool[MAX_ENTITIES]` together with
  `active_entity_count` is modeled by the list of its live prefix
  (slots `0 .. active_entity_count-1`); `active_entity_count` is the length.
* The floating-point cosine-similarity (with the fast-inverse-sqrt bit hack)
  is not exactly representable; it is passed as an explicit parameter
  `cos : HVec → HVec → ℚ` of the update cycle.  No claim checked here
  depends on its value, only on when it is computed and stored.
-/

namespace Holo

def HOLOGRAPHIC_DIMENSIONS : Nat := 512
def MAX_MEMORY_ENTRIES : Nat := 128
def MAX_ENTITIES : Nat := 32

/-- One step of FNV-1a: `hash = (hash XOR byte) * 16777619` in `uint32_t`. -/
def fnvStep (h b : Nat) : Nat := ((h ^^^ b) * 16777619) % 2 ^ 32

/-- `hash_data` from the source: FNV-1a over the input bytes, init 2166136261. -/
def hash_data (input : List Nat) : Nat := input.foldl fnvStep 2166136261

/-- One LCG draw: `seed = (seed * 1103515245 + 12345) & 0x7fffffff`. -/
def lcgNext (s : Nat) : Nat := (s * 1103515245 + 12345) % 2 ^ 31

/-- Numerator of a filled component: `(seed % 2000) - 1000` evaluated in
`uint32_t` arithmetic (wraps below 1000), kept as an integer in `[0, 2^32)`. -/
def dataNum (s : Nat) : Int := (((s % 2000 : Nat) : Int) - 1000) % (2 ^ 32 : Int)

structure HVec where
  data : List Int
  hash_signature : Nat
  active_dimensions : Nat
  valid : Bool
deriving DecidableEq, Inhabited

/-- The generation loop of `create_holographic_vector`: starting from `s`,
draw `n` LCG values; a draw `s2` with `s2 % 10 == 0` fills the dimension with
`dataNum s2` and bumps `active_dimensions`, otherwise the dimension is zero.
Returns (data, active_dimensions). -/
def genData : Nat → Nat → List Int × Nat
  | _, 0 => ([], 0)
  | s, n + 1 =>
    let s2 := lcgNext s
    let r := genData s2 n
    if s2 % 10 = 0 then (dataNum s2 :: r.1, r.2 + 1) else (0 :: r.1, r.2)

/-- `create_holographic_vector` from the source. -/
def createVec (input : List Nat) : HVec :=
  let h := hash_data input
  let r := genData h HOLOGRAPHIC_DIMENSIONS
  ⟨r.1, h, r.2, true⟩

/-- Bytes of a C string literal including the NUL terminator, as passed with
`strlen(s) + 1` in the source. -/
def strBytes (s : String) : List Nat := s.toList.map Char.toNat ++ [0]

def dormantBytes : List Nat := strBytes ("TRAIT_DORMANT")
def activeBytes : List Nat := strBytes ("TRAIT_ACTIVE")
def genomeBytes : List Nat := strBytes ("GENOME_SIMPLE_RULE_1")

structure MemoryEntry where
  input_pattern : HVec
  output_pattern : HVec
  timestamp : Nat
  valid : Bool
deriving DecidableEq, Inhabited

/-- `encode_holographic_memory`: at capacity the oldest entry (index 0) is
shifted out, then the new entry is appended with the current global timestamp,
which is then advanced.  Returns (entries, new timestamp). -/
def encodeStep (entries : List MemoryEntry) (ts : Nat) (inp outp : HVec) :
    List MemoryEntry × Nat :=
  let entries1 := if MAX_MEMORY_ENTRIES ≤ entries.length then entries.drop 1 else entries
  (entries1 ++ [⟨inp, outp, ts, true⟩], ts + 1)

/-- `retrieve_holographic_memory`: scan from the newest entry backward for a
valid entry whose input signature matches; return its output pattern. -/
def retrieve (entries : List MemoryEntry) (sig : Nat) : Option HVec :=
  (entries.reverse.find? fun e => e.valid && (e.input_pattern.hash_signature == sig)).map
    (fun e => e.output_pattern)

structure Entity where
  id : Nat
  state : HVec
  genome : HVec
  age : Nat
  interaction_count : Nat
  is_active : Bool
  specialization_scores : List ℚ
  resource_allocation : ℚ
  confidence : ℚ
  domain_name : String
  task_vector : HVec
  path_id : Nat
  task_alignment : ℚ
  fitness_score : Nat
  spawn_count : Nat
  marked_for_gc : Bool
  is_mutant : Bool
deriving DecidableEq, Inhabited

/-- The whole mutable global state: entity pool (live prefix),
holographic memory pool, and `global_timestamp`. -/
structure System where
  pool : List Entity
  store : List MemoryEntry
  ts : Nat
deriving DecidableEq, Inhabited

/-- Genome lookup of `spawn_entity`: retrieve the canonical genome record;
on a miss, insert it (which advances the global timestamp) and use the local
copy.  Returns (genome vector, entries, timestamp). -/
def genomeLookup (store : List MemoryEntry) (ts : Nat) : HVec × List MemoryEntry × Nat :=
  match retrieve store (createVec genomeBytes).hash_signature with
  | some outp => (outp, store, ts)
  | none =>
    let r := encodeStep store ts (createVec genomeBytes) (createVec genomeBytes)
    (createVec genomeBytes, r.1, r.2)

structure SpawnResult where
  child : Option Entity
  pool : List Entity
  store : List MemoryEntry
  ts : Nat

/-- `spawn_entity` from the source.  `residualTV`/`residualPID` model the
residual contents of `task_vector`/`path_id` in the reused arena slot, which
`spawn_entity` never initializes; inside the update cycle both are immediately
overwritten with the parent values before any read. -/
def spawnEntity (pool : List Entity) (store : List MemoryEntry) (ts : Nat)
    (residualTV : HVec) (residualPID : Nat) : SpawnResult :=
  if MAX_ENTITIES ≤ pool.length then ⟨none, pool, store, ts⟩
  else
    let gl := genomeLookup store ts
    let child : Entity :=
      { id := pool.length, age := 0, interaction_count := 0, is_active := true
        fitness_score := 0, spawn_count := 0, marked_for_gc := false, is_mutant := false
        state := createVec dormantBytes, genome := gl.1
        specialization_scores := List.replicate 8 (1 / 10 : ℚ)
        resource_allocation := 1, confidence := 1 / 2, task_alignment := 0
        domain_name := "emergent", task_vector := residualTV, path_id := residualPID }
    ⟨some child, pool ++ [child], gl.2.1, gl.2.2⟩

/-- `spawn_entity` as an operation on the whole system state. -/
def spawnOp (sys : System) (residualTV : HVec) (residualPID : Nat) : System :=
  let r := spawnEntity sys.pool sys.store sys.ts residualTV residualPID
  ⟨r.pool, r.store, r.ts⟩

/-- The mutation of the spawn rule: flip the sign of dimension `d`
(`child->state.data[rand_dim] = -child->state.data[rand_dim]`). -/
def mutateState (v : HVec) (d : Nat) : HVec :=
  { v with data := v.data.set d (-(v.data.getD d 0)) }

/-- The child produced by the spawn rule of `update_entities` (lines 410-424):
`spawn_entity`s fresh entity `base`, then genome, mutant flag, mutated parent
state (dimension `ts % 512` sign-flipped, `ts` read after `spawn_entity`
returned), task vector, path id and task alignment taken from the parent. -/
def childOf (parent base : Entity) (ts : Nat) : Entity :=
  { base with
    genome := parent.genome
    is_mutant := true
    state := mutateState parent.state (ts % HOLOGRAPHIC_DIMENSIONS)
    task_vector := parent.task_vector
    path_id := parent.path_id
    task_alignment := parent.task_alignment }

/-- The double buffer entry of `update_entities` for one index: the slices of
`next_active`, `next_state`, `next_domain`, `next_task_vector`, `next_path_id`
and `next_task_alignment` at that index. -/
structure NextBuf where
  active : Bool
  state : HVec
  domain : String
  task_vector : HVec
  path_id : Nat
  task_alignment : ℚ
deriving DecidableEq, Inhabited

/-- State carried through the evaluation loop of `update_entities`
(lines 367-465).  `bufs` holds the buffer entries of the indices visited so
far (the loop writes buffer index `i` while visiting `i`).  `spawnFullHit`
records whether the pool-full failure branch of `spawn_entity` was ever
reached from the spawn rule. -/
structure EvalState where
  pool : List Entity
  store : List MemoryEntry
  ts : Nat
  bufs : List NextBuf
  spawnFullHit : Bool

/-- Outcome of the three-rule cellular-automata chain for one entity. -/
structure RuleOut where
  buf : NextBuf
  ic : Nat
  sc : Nat
  fit : Nat
  children : List Entity
  store : List MemoryEntry
  ts : Nat
  fullHit : Bool

/-- `neighbor_active` of `update_entities`: ring indices
`prev = (i == 0) ? count-1 : i-1`, `next = (i == count-1) ? 0 : i+1`,
reading the live pool (which mid-cycle already contains entities spawned by
earlier iterations). -/
def nbrCount (pool : List Entity) (i : Nat) : Nat :=
  let n := pool.length
  let prev := if i = 0 then n - 1 else i - 1
  let nxt := if i = n - 1 then 0 else i + 1
  (if (pool.getD prev default).is_active then 1 else 0) +
    (if (pool.getD nxt default).is_active then 1 else 0)

/-- One iteration of the evaluation loop of `update_entities` for index `i`:
buffer initialization, age increment, neighbor count, the three mutually
exclusive rules (activate / sleep / spawn), task alignment, fitness bonuses,
and the GC-mark check, exactly in source order. -/
def evalStep (cos : HVec → HVec → ℚ) (st : EvalState) (i : Nat) : EvalState :=
  let pool := st.pool
  let n := pool.length
  let e := pool.getD i default
  let nbr := nbrCount pool i
  let age1 := e.age + 1
  let buf0 : NextBuf :=
    ⟨e.is_active, e.state, e.domain_name, e.task_vector, e.path_id, e.task_alignment⟩
  let rule : RuleOut :=
    if e.is_active = false ∧ 0 < nbr then
      { buf := ⟨true, createVec activeBytes, "reactor",
                buf0.task_vector, buf0.path_id, buf0.task_alignment⟩
        ic := e.interaction_count + 1, sc := e.spawn_count, fit := e.fitness_score
        children := [], store := st.store, ts := st.ts, fullHit := false }
    else if e.is_active = true ∧ nbr = 0 then
      { buf := ⟨false, createVec dormantBytes, "sleeper",
                buf0.task_vector, buf0.path_id, buf0.task_alignment⟩
        ic := e.interaction_count + 1, sc := e.spawn_count, fit := e.fitness_score
        children := [], store := st.store, ts := st.ts, fullHit := false }
    else if e.is_active = true ∧ 2 ≤ nbr ∧ n < MAX_ENTITIES - 1 then
      let r := spawnEntity pool st.store st.ts default 0
      match r.child with
      | some c0 =>
        { buf := buf0, ic := e.interaction_count
          sc := e.spawn_count + 1, fit := e.fitness_score + 10
          children := [childOf e c0 r.ts], store := r.store, ts := r.ts, fullHit := false }
      | none =>
        { buf := buf0, ic := e.interaction_count, sc := e.spawn_count
          fit := e.fitness_score, children := [], store := r.store, ts := r.ts
          fullHit := true }
    else
      { buf := buf0, ic := e.interaction_count, sc := e.spawn_count
        fit := e.fitness_score, children := [], store := st.store, ts := st.ts
        fullHit := false }
  let buf2 : NextBuf :=
    if e.task_vector.valid then
      { rule.buf with task_alignment := cos e.state e.task_vector }
    else rule.buf
  let fit3 : Nat :=
    if e.task_vector.valid then
      rule.fit + (if (7 / 10 : ℚ) < cos e.state e.task_vector then 5 else 0)
    else rule.fit
  let mk2 : Bool :=
    if 1000 < age1 ∧ fit3 < 50 then true else e.marked_for_gc
  { pool :=
      pool.set i
        { e with age := age1, interaction_count := rule.ic, spawn_count := rule.sc
                 fitness_score := fit3, marked_for_gc := mk2 }
        ++ rule.children
    store := rule.store
    ts := rule.ts
    bufs := st.bufs ++ [buf2]
    spawnFullHit := st.spawnFullHit || rule.fullHit }

/-- The evaluation loop `for (i = 0; i < active_entity_count; i++)` of
`update_entities`; the bound re-reads the live count, which grows when the
spawn rule fires, so the loop also visits entities spawned during the cycle.
`fuel` only realizes termination; `updateEval` passes enough for the loop to
run to completion (the count never exceeds `max initial-count 31`). -/
def evalLoop (cos : HVec → HVec → ℚ) : Nat → EvalState → Nat → EvalState
  | 0, st, _ => st
  | fuel + 1, st, i =>
    if i < st.pool.length then evalLoop cos fuel (evalStep cos st i) (i + 1) else st

def initEvalState (sys : System) : EvalState := ⟨sys.pool, sys.store, sys.ts, [], false⟩

def updateEval (cos : HVec → HVec → ℚ) (sys : System) : EvalState :=
  evalLoop cos (sys.pool.length + 31) (initEvalState sys) 0

/-- The apply phase (lines 468-476): copy the buffered `is_active`, state,
domain, task vector, path id and task alignment into the live record. -/
def mergeEnt (e : Entity) (b : NextBuf) : Entity :=
  { e with is_active := b.active, state := b.state, domain_name := b.domain
           task_vector := b.task_vector, path_id := b.path_id
           task_alignment := b.task_alignment }

/-- Pool after evaluation and apply phases of `update_entities`. -/
def updateApplied (cos : HVec → HVec → ℚ) (sys : System) : List Entity :=
  List.zipWith mergeEnt (updateEval cos sys).pool (updateEval cos sys).bufs

/-- The compacting garbage-collection pass (lines 479-492), verbatim: a
forward scan with a write index; an unmarked entity at `i` is copied to slot
`wi` when `wi ≠ i`; returns the raw array contents and the final write index
(the new `active_entity_count`).  `fuel` only realizes termination of the
structural recursion; `gcRun` passes `arr.length`, which always suffices
because `List.set` preserves length. -/
def gcAux : Nat → List Entity → Nat → Nat → List Entity × Nat
  | 0, arr, wi, _ => (arr, wi)
  | fuel + 1, arr, wi, i =>
    if h : i < arr.length then
      let e := arr.get ⟨i, h⟩
      if e.marked_for_gc then gcAux fuel arr wi (i + 1)
      else gcAux fuel (if wi = i then arr else arr.set wi e) (wi + 1) (i + 1)
    else (arr, wi)

/-- The live prefix left by the garbage-collection pass. -/
def gcRun (arr : List Entity) : List Entity :=
  let r := gcAux arr.length arr 0 0
  r.1.take r.2

/-- `update_entities` from the source: evaluation loop, apply phase,
compacting collection. -/
def updateEntities (cos : HVec → HVec → ℚ) (sys : System) : System :=
  let ev := updateEval cos sys
  ⟨gcRun (updateApplied cos sys), ev.store, ev.ts⟩

/-!  Spec-side reference definitions (used only to state claims, never to
define the code model).  They follow the words of spec sections 4.4 and 3. -/

/-- Modelled from the spec (section 4.4): the snapshot neighbor count — the
number of active entities among ring indices `(i-1) mod active_count` and
`(i+1) mod active_count`, all read from the pre-update pool. -/
def specNbrCount (pool : List Entity) (i : Nat) : Nat :=
  let n := pool.length
  (if (pool.getD ((i + n - 1) % n) default).is_active then 1 else 0) +
    (if (pool.getD ((i + 1) % n) default).is_active then 1 else 0)

/-- Modelled from the spec (section 4.4): the next active flag of entity `i`
under pure pre-update-snapshot semantics (rules 1 and 2; rule 3 and the
no-rule case carry the flag forward). -/
def specNextActive (pool : List Entity) (i : Nat) : Bool :=
  let e := pool.getD i default
  if e.is_active = false ∧ 0 < specNbrCount pool i then true
  else if e.is_active = true ∧ specNbrCount pool i = 0 then false
  else e.is_active

/-- The flat firing condition of the spawn rule as the (amended) claim C3
words it: activate and sleep did not match, the entity is active, at least
two neighbors are active, and `active_entity_count < MAX_ENTITIES - 1`. -/
def c3cond (pool : List Entity) (i : Nat) : Bool :=
  let e := pool.getD i default
  let nbr := nbrCount pool i
  (!(!e.is_active && decide (0 < nbr))) && (!(e.is_active && decide (nbr = 0))) &&
    e.is_active && decide (2 ≤ nbr) && decide (pool.length < MAX_ENTITIES - 1)

/-!  Concrete states used by counterexamples and witnesses. -/

/-- An all-zero invalid vector: the zero-initialized global contents of an
unassigned `task_vector` (its `valid` flag is 0). -/
def zeroVec : HVec := ⟨List.replicate HOLOGRAPHIC_DIMENSIONS 0, 0, 0, false⟩

/-- A trivially valued cosine-similarity parameter for concrete runs in which
no entity has a valid task vector (the value is never read). -/
def cos0 : HVec → HVec → ℚ := fun _ _ => 0

def baseEnt : Entity :=
  { id := 0, state := zeroVec, genome := zeroVec, age := 0, interaction_count := 0
    is_active := false, specialization_scores := List.replicate 8 (1 / 10 : ℚ)
    resource_allocation := 1, confidence := 1 / 2, domain_name := "generic"
    task_vector := zeroVec, path_id := 0, task_alignment := 0, fitness_score := 0
    spawn_count := 0, marked_for_gc := false, is_mutant := false }

def mkEnt (i : Nat) (act : Bool) : Entity := { baseEnt with id := i, is_active := act }

def mkAged (i age fit : Nat) : Entity :=
  { baseEnt with id := i, age := age, fitness_score := fit }

/-- The canonical genome record as `load_initial_genome_vocabulary` leaves it
in the store at boot. -/
def genomeEntry : MemoryEntry := ⟨createVec genomeBytes, createVec genomeBytes, 0, true⟩

/-- C1 counterexample state: ring of six entities, dormant/active pattern
D A A A D D.  Entity 2 has two active neighbors and spawns; entity 5 then
sees the freshly spawned (live) child as its successor neighbor. -/
def poolC1 : List Entity :=
  [mkEnt 0 false, mkEnt 1 true, mkEnt 2 true, mkEnt 3 true, mkEnt 4 false, mkEnt 5 false]

def sysC1 : System := ⟨poolC1, [genomeEntry], 0⟩

/-- C3 counterexample state: 31 active entities (every ring neighbor count
is 2), so the claimed guard `active_count < 32` holds but the code guard
`active_count < 31` does not. -/
def poolC3 : List Entity := (List.range 31).map fun k => mkEnt k true

def sysC3 : System := ⟨poolC3, [genomeEntry], 0⟩

/-- C4 counterexample state: three dormant entities, the middle one old and
unfit (collected by the next update). -/
def sysC4 : System := ⟨[mkAged 0 500 0, mkAged 1 1500 0, mkAged 2 500 0], [genomeEntry], 0⟩

/-- An entity as `initialize_emergent_entities` leaves it: active with the
dormant-trait state vector. -/
def dormantEnt (i : Nat) (act : Bool) : Entity :=
  { baseEnt with id := i, is_active := act, state := createVec dormantBytes }

/-- C5 counterexample state: ring A A A D whose entity 1 spawns (its two
neighbors are active); the tick is 1, and dimension 1 of the dormant-trait
state vector is zero, so the sign flip leaves the child state equal to the
parent state. -/
def poolC5 : List Entity :=
  [dormantEnt 0 true, dormantEnt 1 true, dormantEnt 2 true, dormantEnt 3 false]

def sysC5 : System := ⟨poolC5, [genomeEntry], 1⟩

/-- C6 concrete state: middle entity reaches age 1001 at the GC check with
fitness 49. -/
def sysC6a : System := ⟨[mkAged 0 0 0, mkAged 1 1000 49, mkAged 2 0 0], [genomeEntry], 0⟩

/-- C6 concrete state: same but fitness 50, hence not marked. -/
def sysC6b : System := ⟨[mkAged 0 0 0, mkAged 1 1000 50, mkAged 2 0 0], [genomeEntry], 0⟩

/-- C8 counterexample input: the single byte 0x02.  Draw 258 of its LCG
sequence satisfies `seed % 10 == 0` and `seed % 2000 == 1000`, so dimension
258 is counted as active but its value is zero. -/
def c8Input : List Nat := [2]

/-- A minimal vector with a chosen signature, for the C2 witness. -/
def mkV (k : Nat) : HVec := ⟨[], k, 0, true⟩

/-- Number of dimensions selected by the fill rule (`seed % 10 == 0`) among
`n` draws from seed `s`. -/
def firedCount : Nat → Nat → Nat
  | _, 0 => 0
  | s, n + 1 =>
    let s2 := lcgNext s
    (if s2 % 10 = 0 then 1 else 0) + firedCount s2 n

/-- Number of selected draws whose filled value is exactly zero
(`seed % 2000 == 1000`) among `n` draws from seed `s`. -/
def zeroFillCount : Nat → Nat → Nat
  | _, 0 => 0
  | s, n + 1 =>
    let s2 := lcgNext s
    (if s2 % 10 = 0 ∧ s2 % 2000 = 1000 then 1 else 0) + zeroFillCount s2 n

/-!  List access helpers. -/

theorem getD_append_left {α : Type _} (l1 l2 : List α) (j : Nat) (d : α)
    (h : j < l1.length) : (l1 ++ l2).getD j d = l1.getD j d := by
  simp [List.getD_eq_getElem?_getD, List.getElem?_append_left h]

theorem getD_set_ne {α : Type _} (l : List α) (i j : Nat) (a d : α) (h : i ≠ j) :
    (l.set i a).getD j d = l.getD j d := by
  simp [List.getD_eq_getElem?_getD, List.getElem?_set_ne h]

theorem getD_set_self {α : Type _} (l : List α) (i : Nat) (a d : α) (h : i < l.length) :
    (l.set i a).getD i d = a := by
  simp [List.getD_eq_getElem?_getD, List.getElem?_set_self h]

/-!  Frame predicates: the entity fields that one evaluation iteration never
writes on an entity already in the pool. -/

/-- Fields of an existing entity untouched by the evaluation loop
(everything except age, interaction count, spawn count, fitness, GC mark —
note in particular that `is_active` of an existing entity is only changed by
the later apply phase, never during evaluation). -/
def preservedEq (a b : Entity) : Prop :=
  a.id = b.id ∧ a.is_active = b.is_active ∧ a.genome = b.genome ∧
    a.confidence = b.confidence ∧ a.resource_allocation = b.resource_allocation ∧
    a.specialization_scores = b.specialization_scores ∧ a.is_mutant = b.is_mutant

theorem preservedEq_refl (a : Entity) : preservedEq a a :=
  ⟨rfl, rfl, rfl, rfl, rfl, rfl, rfl⟩

theorem preservedEq_trans {a b c : Entity} (h1 : preservedEq a b) (h2 : preservedEq b c) :
    preservedEq a c := by
  obtain ⟨x1, x2, x3, x4, x5, x6, x7⟩ := h1
  obtain ⟨y1, y2, y3, y4, y5, y6, y7⟩ := h2
  exact ⟨x1.trans y1, x2.trans y2, x3.trans y3, x4.trans y4, x5.trans y5,
    x6.trans y6, x7.trans y7⟩

/-- Fields that a whole `update_entities` call leaves unchanged on an entity
that is alive before and after (claim C10: everything except the six buffered
fields and the five evaluation-mutated counters). -/
def frameEq (a b : Entity) : Prop :=
  a.id = b.id ∧ a.genome = b.genome ∧ a.confidence = b.confidence ∧
    a.resource_allocation = b.resource_allocation ∧
    a.specialization_scores = b.specialization_scores ∧ a.is_mutant = b.is_mutant

theorem preservedEq_frameEq {a b : Entity} (h : preservedEq a b) : frameEq a b :=
  ⟨h.1, h.2.2.1, h.2.2.2.1, h.2.2.2.2.1, h.2.2.2.2.2.1, h.2.2.2.2.2.2⟩

theorem frameEq_trans {a b c : Entity} (h1 : frameEq a b) (h2 : frameEq b c) :
    frameEq a c := by
  obtain ⟨x1, x2, x3, x4, x5, x6⟩ := h1
  obtain ⟨y1, y2, y3, y4, y5, y6⟩ := h2
  exact ⟨x1.trans y1, x2.trans y2, x3.trans y3, x4.trans y4, x5.trans y5, x6.trans y6⟩

theorem mergeEnt_frameEq (e : Entity) (b : NextBuf) : frameEq (mergeEnt e b) e :=
  ⟨rfl, rfl, rfl, rfl, rfl, rfl⟩

/-!  Invariants of one evaluation iteration. -/

theorem evalStep_preserves (cos : HVec → HVec → ℚ) (st : EvalState) (i j : Nat)
    (h : j < st.pool.length) :
    preservedEq ((evalStep cos st i).pool.getD j default) (st.pool.getD j default) := by
  by_cases hij : i = j
  · subst hij
    simp only [evalStep]
    rw [getD_append_left _ _ _ _ (by simpa using h), getD_set_self _ _ _ _ h]
    exact ⟨rfl, rfl, rfl, rfl, rfl, rfl, rfl⟩
  · simp only [evalStep]
    rw [getD_append_left _ _ _ _ (by simpa using h), getD_set_ne _ _ _ _ _ hij]
    exact preservedEq_refl _

theorem evalStep_length_lower (cos : HVec → HVec → ℚ) (st : EvalState) (i : Nat) :
    st.pool.length ≤ (evalStep cos st i).pool.length := by
  simp only [evalStep, List.length_append, List.length_set]
  omega

theorem evalStep_bufs_len (cos : HVec → HVec → ℚ) (st : EvalState) (i : Nat) :
    (evalStep cos st i).bufs.length = st.bufs.length + 1 := by
  simp [evalStep]

theorem spawnEntity_child_isSome (pool : List Entity) (store : List MemoryEntry)
    (ts : Nat) (tv : HVec) (pid : Nat) (h : pool.length < MAX_ENTITIES) :
    ((spawnEntity pool store ts tv pid).child).isSome = true := by
  simp [spawnEntity, Nat.not_le.mpr h]

theorem evalStep_length_le_max (cos : HVec → HVec → ℚ) (st : EvalState) (i : Nat) :
    (evalStep cos st i).pool.length ≤ max st.pool.length 31 := by
  simp only [evalStep, List.length_append, List.length_set]
  split_ifs with h1 h2 h3
  · simp
  · simp
  · have hc := spawnEntity_child_isSome st.pool st.store st.ts default 0
      (by simp only [MAX_ENTITIES] at h3 ⊢; omega)
    obtain ⟨c0, hc0⟩ := Option.isSome_iff_exists.mp hc
    rw [hc0]
    simp only [List.length_cons, List.length_nil]
    simp only [MAX_ENTITIES] at h3
    omega
  · simp

theorem evalStep_flag (cos : HVec → HVec → ℚ) (st : EvalState) (i : Nat) :
    (evalStep cos st i).spawnFullHit = st.spawnFullHit := by
  simp only [evalStep]
  split_ifs with h1 h2 h3
  · simp
  · simp
  · have hc := spawnEntity_child_isSome st.pool st.store st.ts default 0
      (by simp only [MAX_ENTITIES] at h3 ⊢; omega)
    obtain ⟨c0, hc0⟩ := Option.isSome_iff_exists.mp hc
    rw [hc0]
    simp
  · simp

/-!  Invariants of the whole evaluation loop. -/

theorem evalLoop_preserves (cos : HVec → HVec → ℚ) :
    ∀ (fuel : Nat) (st : EvalState) (i j : Nat), j < st.pool.length →
      preservedEq ((evalLoop cos fuel st i).pool.getD j default) (st.pool.getD j default) := by
  intro fuel
  induction fuel with
  | zero => intro st i j h; exact preservedEq_refl _
  | succ n ih =>
    intro st i j h
    simp only [evalLoop]
    split
    · exact preservedEq_trans
        (ih (evalStep cos st i) (i + 1) j (lt_of_lt_of_le h (evalStep_length_lower cos st i)))
        (evalStep_preserves cos st i j h)
    · exact preservedEq_refl _

theorem evalLoop_length_lower (cos : HVec → HVec → ℚ) :
    ∀ (fuel : Nat) (st : EvalState) (i : Nat),
      st.pool.length ≤ (evalLoop cos fuel st i).pool.length := by
  intro fuel
  induction fuel with
  | zero => intro st i; exact Nat.le_refl _
  | succ n ih =>
    intro st i
    simp only [evalLoop]
    split
    · exact Nat.le_trans (evalStep_length_lower cos st i) (ih (evalStep cos st i) (i + 1))
    · exact Nat.le_refl _

theorem evalLoop_flag (cos : HVec → HVec → ℚ) :
    ∀ (fuel : Nat) (st : EvalState) (i : Nat),
      (evalLoop cos fuel st i).spawnFullHit = st.spawnFullHit := by
  intro fuel
  induction fuel with
  | zero => intro st i; rfl
  | succ n ih =>
    intro st i
    simp only [evalLoop]
    split
    · rw [ih (evalStep cos st i) (i + 1), evalStep_flag]
    · rfl

/-- With enough fuel the evaluation loop runs to completion: the buffer list
ends up exactly as long as the (possibly grown) pool, i.e. every live index
was visited, as in the unbounded C loop. -/
theorem evalLoop_complete (cos : HVec → HVec → ℚ) :
    ∀ (fuel : Nat) (st : EvalState) (i M : Nat),
      st.pool.length ≤ M → 31 ≤ M → M ≤ fuel + i → i ≤ st.pool.length →
      st.bufs.length = i →
      (evalLoop cos fuel st i).bufs.length = (evalLoop cos fuel st i).pool.length := by
  intro fuel
  induction fuel with
  | zero =>
    intro st i M h1 h2 h3 h4 h5
    simp only [evalLoop]
    omega
  | succ n ih =>
    intro st i M h1 h2 h3 h4 h5
    simp only [evalLoop]
    split
    · next hlt =>
      apply ih (evalStep cos st i) (i + 1) M
      · exact Nat.le_trans (evalStep_length_le_max cos st i) (Nat.max_le.mpr ⟨h1, h2⟩)
      · exact h2
      · omega
      · have := evalStep_length_lower cos st i
        omega
      · rw [evalStep_bufs_len]; omega
    · next hge => omega

theorem updateEval_len_lower (cos : HVec → HVec → ℚ) (sys : System) :
    sys.pool.length ≤ (updateEval cos sys).pool.length :=
  evalLoop_length_lower cos _ (initEvalState sys) 0

theorem updateEval_complete (cos : HVec → HVec → ℚ) (sys : System) :
    (updateEval cos sys).bufs.length = (updateEval cos sys).pool.length := by
  refine evalLoop_complete cos _ (initEvalState sys) 0 (max sys.pool.length 31)
    (Nat.le_max_left _ _) (Nat.le_max_right _ _) ?_ (Nat.zero_le _) rfl
  have h1 : sys.pool.length ≤ sys.pool.length + 31 := Nat.le_add_right _ _
  have h2 : 31 ≤ sys.pool.length + 31 := Nat.le_add_left _ _
  omega

theorem updateEval_preserves (cos : HVec → HVec → ℚ) (sys : System) (j : Nat)
    (h : j < sys.pool.length) :
    preservedEq ((updateEval cos sys).pool.getD j default) (sys.pool.getD j default) :=
  evalLoop_preserves cos _ (initEvalState sys) 0 j h

/-- The applied pool at an index below the original count is the merge of the
evaluated entity with its buffer entry. -/
theorem updateApplied_getD (cos : HVec → HVec → ℚ) (sys : System) (j : Nat)
    (h : j < sys.pool.length) :
    (updateApplied cos sys).getD j default =
      mergeEnt ((updateEval cos sys).pool.getD j default)
        ((updateEval cos sys).bufs.getD j default) := by
  have h1 : j < (updateEval cos sys).pool.length :=
    lt_of_lt_of_le h (updateEval_len_lower cos sys)
  have h2 : j < (updateEval cos sys).bufs.length := by
    rw [updateEval_complete]; exact h1
  have h3 : j < (updateApplied cos sys).length := by
    simp only [updateApplied, List.length_zipWith]
    omega
  rw [List.getD_eq_getElem?_getD, List.getD_eq_getElem?_getD, List.getD_eq_getElem?_getD,
    List.getElem?_eq_getElem h3, List.getElem?_eq_getElem h1, List.getElem?_eq_getElem h2]
  simp only [Option.getD_some]
  simp [updateApplied]

/-!  The compacting GC pass computes an order-preserving filter. -/

theorem gcAux_spec :
    ∀ (fuel : Nat) (arr : List Entity) (wi i : Nat), arr.length - i ≤ fuel → wi ≤ i →
      (gcAux fuel arr wi i).1.take (gcAux fuel arr wi i).2
          = arr.take wi ++ (arr.drop i).filter (fun e => !e.marked_for_gc)
        ∧ (gcAux fuel arr wi i).2
            = wi + ((arr.drop i).filter (fun e => !e.marked_for_gc)).length := by
  intro fuel
  induction fuel with
  | zero =>
    intro arr wi i hk hwi
    have hge : arr.length ≤ i := by omega
    simp only [gcAux]
    rw [List.drop_eq_nil_of_le hge]
    simp
  | succ n ih =>
    intro arr wi i hk hwi
    by_cases hlt : i < arr.length
    · rw [gcAux, dif_pos hlt]
      have hdrop : arr.drop i = arr.get ⟨i, hlt⟩ :: arr.drop (i + 1) :=
        List.drop_eq_getElem_cons hlt
      by_cases hm : (arr.get ⟨i, hlt⟩).marked_for_gc
      · rw [if_pos hm]
        have hrec := ih arr wi (i + 1) (by omega) (by omega)
        rw [hdrop, List.filter_cons_of_neg (by revert hm; cases (arr.get ⟨i, hlt⟩).marked_for_gc <;> simp)]
        exact hrec
      · rw [if_neg hm]
        by_cases hwii : wi = i
        · subst hwii
          rw [if_pos rfl]
          have hrec := ih arr (wi + 1) (wi + 1) (by omega) (Nat.le_refl _)
          have htake : arr.take (wi + 1) = arr.take wi ++ [arr.get ⟨wi, hlt⟩] := by
            rw [List.take_succ, List.getElem?_eq_getElem hlt]
            rfl
          rw [hrec.1, hrec.2, hdrop, List.filter_cons_of_pos (by revert hm; cases (arr.get ⟨wi, hlt⟩).marked_for_gc <;> simp), htake]
          constructor
          · rw [List.append_assoc]
            rfl
          · simp only [List.length_cons]
            omega
        · have hwilt : wi < i := by omega
          rw [if_neg hwii]
          have hlen2 : (arr.set wi (arr.get ⟨i, hlt⟩)).length = arr.length :=
            List.length_set arr wi _
          have hrec := ih (arr.set wi (arr.get ⟨i, hlt⟩)) (wi + 1) (i + 1)
            (by rw [hlen2]; omega) (by omega)
          have hdrop2 : (arr.set wi (arr.get ⟨i, hlt⟩)).drop (i + 1) = arr.drop (i + 1) :=
            List.drop_set_of_lt _ arr (by omega)
          have htake2 : (arr.set wi (arr.get ⟨i, hlt⟩)).take (wi + 1)
              = arr.take wi ++ [arr.get ⟨i, hlt⟩] := by
            rw [List.set_eq_take_append_cons_drop, if_pos (by omega)]
            have hlenw : (arr.take wi).length = wi := List.length_take_of_le (by omega)
            have := @List.take_append Entity (arr.take wi)
              (arr.get ⟨i, hlt⟩ :: arr.drop (wi + 1)) 1
            rw [hlenw] at this
            rw [this]
            rfl
          rw [hrec.1, hrec.2, hdrop2, htake2, hdrop,
            List.filter_cons_of_pos (by revert hm; cases (arr.get ⟨i, hlt⟩).marked_for_gc <;> simp)]
          constructor
          · rw [List.append_assoc]
            rfl
          · simp only [List.length_cons]
            omega
    · rw [gcAux, dif_neg hlt]
      rw [List.drop_eq_nil_of_le (by omega)]
      simp

/-- The GC pass of `update_entities` keeps, in order, exactly the unmarked
entities of the live prefix: it is the order-preserving filter. -/
theorem gcRun_eq_filter (arr : List Entity) :
    gcRun arr = arr.filter (fun e => !e.marked_for_gc) := by
  have h := gcAux_spec arr.length arr 0 0 (by omega) (Nat.le_refl 0)
  simpa [gcRun] using h.1

/-!  PatternStore: folding insertions. -/

/-- Repeated `encode_holographic_memory`, threading entries and timestamp. -/
def insertAll (store : List MemoryEntry) (ts : Nat) (pairs : List (HVec × HVec)) :
    List MemoryEntry × Nat :=
  pairs.foldl (fun st p => encodeStep st.1 st.2 p.1 p.2) (store, ts)

/-- The entries that a run of insertions appends when no eviction occurs:
consecutive timestamps starting at `ts`. -/
def entriesOf : Nat → List (HVec × HVec) → List MemoryEntry
  | _, [] => []
  | ts, p :: r => ⟨p.1, p.2, ts, true⟩ :: entriesOf (ts + 1) r

theorem entriesOf_length : ∀ (ts : Nat) (l : List (HVec × HVec)),
    (entriesOf ts l).length = l.length := by
  intro ts l
  induction l generalizing ts with
  | nil => rfl
  | cons p r ih => simp [entriesOf, ih]

theorem entriesOf_sigs : ∀ (ts : Nat) (l : List (HVec × HVec)),
    (entriesOf ts l).map (fun e => e.input_pattern.hash_signature)
      = l.map (fun p => p.1.hash_signature) := by
  intro ts l
  induction l generalizing ts with
  | nil => rfl
  | cons p r ih => simp [entriesOf, ih]

theorem entriesOf_valid : ∀ (ts : Nat) (l : List (HVec × HVec)),
    ∀ e ∈ entriesOf ts l, e.valid = true := by
  intro ts l
  induction l generalizing ts with
  | nil => intro e he; cases he
  | cons p r ih =>
    intro e he
    rcases List.mem_cons.mp he with he2 | he2
    · subst he2; rfl
    · exact ih _ e he2

theorem insertAll_below_capacity :
    ∀ (pairs : List (HVec × HVec)) (store : List MemoryEntry) (ts : Nat),
      store.length + pairs.length ≤ MAX_MEMORY_ENTRIES →
      insertAll store ts pairs = (store ++ entriesOf ts pairs, ts + pairs.length) := by
  intro pairs
  induction pairs with
  | nil => intro store ts h; simp [insertAll, entriesOf]
  | cons p r ih =>
    intro store ts h
    have hlt : ¬ MAX_MEMORY_ENTRIES ≤ store.length := by
      simp only [List.length_cons] at h
      omega
    have hstep : encodeStep store ts p.1 p.2 = (store ++ [⟨p.1, p.2, ts, true⟩], ts + 1) := by
      simp [encodeStep, hlt]
    have hrest := ih (store ++ [⟨p.1, p.2, ts, true⟩]) (ts + 1)
      (by simp only [List.length_append, List.length_cons, List.length_nil] at h ⊢; omega)
    simp only [insertAll, List.foldl_cons] at hrest ⊢
    rw [hstep, hrest]
    simp [entriesOf]
    omega

/-!  Vector generation: the active-dimension counter versus non-zero entries. -/

theorem dataNum_eq_zero_iff (s : Nat) : dataNum s = 0 ↔ s % 2000 = 1000 := by
  have h : s % 2000 < 2000 := Nat.mod_lt _ (by norm_num)
  simp only [dataNum]
  have h32 : (2 : Int) ^ 32 = 4294967296 := by norm_num
  rw [h32]
  omega

theorem genData_length : ∀ (n s : Nat), (genData s n).1.length = n := by
  intro n
  induction n with
  | zero => intro s; rfl
  | succ m ih =>
    intro s
    simp only [genData]
    split <;> simp [ih]

theorem genData_count : ∀ (n s : Nat),
    (genData s n).2
      = (genData s n).1.countP (fun x => decide (x ≠ 0)) + zeroFillCount s n := by
  intro n
  induction n with
  | zero => intro s; rfl
  | succ m ih =>
    intro s
    have hstep := ih (lcgNext s)
    simp only [genData, zeroFillCount]
    by_cases h10 : lcgNext s % 10 = 0
    · rw [if_pos h10]
      by_cases hz : lcgNext s % 2000 = 1000
      · have hdz : dataNum (lcgNext s) = 0 := (dataNum_eq_zero_iff _).mpr hz
        rw [if_pos ⟨h10, hz⟩]
        dsimp only
        simp only [List.countP_cons]
        rw [if_neg (by simp [hdz])]
        omega
      · have hdz : dataNum (lcgNext s) ≠ 0 := fun hc => hz ((dataNum_eq_zero_iff _).mp hc)
        rw [if_neg (fun hc => hz hc.2)]
        dsimp only
        simp only [List.countP_cons]
        rw [if_pos (by simp [hdz])]
        omega
    · rw [if_neg h10, if_neg (fun hc => h10 hc.1)]
      dsimp only
      simp only [List.countP_cons]
      rw [if_neg (by simp)]
      omega

/-! Claim theorems. -/

/-- C1, counterexample.  The claim says every transition decision is based
solely on the pre-update snapshot of the two ring neighbors and observes no
state updated earlier in the same cycle, including entities spawned during
that cycle.  In state `poolC1` (D A A A D D), entity 2 spawns a live child at
index 6; entity 5 (dormant, snapshot neighbors 4 and 0 both dormant, so the
snapshot semantics `specNextActive` leaves it dormant) then reads that child
as its successor neighbor and activates. -/
theorem c1_counterexample :
    ((updateEntities cos0 sysC1).pool.getD 5 default).is_active = true
    ∧ specNextActive poolC1 5 = false
    ∧ (poolC1.getD 5 default).is_active = false
    ∧ (updateEntities cos0 sysC1).pool.length = 7 := by
  decide

/-- C1, amended: during the evaluation loop the `is_active` flag of every
entity present at cycle start is never written (activate/sleep transitions
are double-buffered until the apply phase), so no decision ever observes an
updated flag of a pre-existing entity; entities spawned during the cycle,
however, are live immediately and later iterations can observe them. -/
theorem c1_amended (cos : HVec → HVec → ℚ) (sys : System) (j : Nat)
    (h : j < sys.pool.length) :
    ((updateEval cos sys).pool.getD j default).is_active
      = (sys.pool.getD j default).is_active :=
  (updateEval_preserves cos sys j h).2.1

theorem c1_amended_witness :
    0 < sysC1.pool.length
    ∧ ((updateEval cos0 sysC1).pool.getD 0 default).is_active
        = (sysC1.pool.getD 0 default).is_active :=
  ⟨by decide, c1_amended cos0 sysC1 0 (by decide)⟩

/-- C9: the pool-full failure branch of `spawn_entity` is unreachable from
the update cycle: the spawn rule guard `active_entity_count < MAX_ENTITIES-1`
makes the capacity check `active_entity_count >= MAX_ENTITIES` false, so the
spawn succeeds; consequently the evaluation loop never reaches the failure
branch (`spawnFullHit` stays false for every input state). -/
theorem c9_spawn_never_fails :
    (∀ (pool : List Entity) (store : List MemoryEntry) (ts : Nat) (tv : HVec) (pid : Nat),
      pool.length < MAX_ENTITIES - 1 →
      ((spawnEntity pool store ts tv pid).child).isSome = true)
    ∧ (∀ (cos : HVec → HVec → ℚ) (sys : System), (updateEval cos sys).spawnFullHit = false) := by
  constructor
  · intro pool store ts tv pid h
    exact spawnEntity_child_isSome pool store ts tv pid
      (by simp only [MAX_ENTITIES] at h ⊢; omega)
  · intro cos sys
    rw [updateEval, evalLoop_flag]
    rfl

theorem c9_spawn_never_fails_witness :
    ([] : List Entity).length < MAX_ENTITIES - 1
    ∧ ((spawnEntity [] [] 0 zeroVec 0).child).isSome = true :=
  ⟨by decide, c9_spawn_never_fails.1 [] [] 0 zeroVec 0 (by decide)⟩

/-- C7: the collection pass is exactly the order-preserving filter of the
unmarked entities: survivors are kept in their original relative order in the
contiguous prefix `[0, write_index)`, and `update_entities` ends with
precisely that compaction of the applied pool.  Concretely, collecting index
1 of three live entities 0,1,2 leaves old 0 and old 2 at new indices 0,1. -/
theorem c7_compaction_order :
    (∀ arr : List Entity, gcRun arr = arr.filter (fun e => !e.marked_for_gc))
    ∧ (∀ (cos : HVec → HVec → ℚ) (sys : System),
        (updateEntities cos sys).pool
          = (updateApplied cos sys).filter (fun e => !e.marked_for_gc))
    ∧ ((gcRun [mkEnt 0 false, { mkEnt 1 false with marked_for_gc := true }, mkEnt 2 false]).map
        (fun e => e.id)) = [0, 2] := by
  refine ⟨gcRun_eq_filter, ?_, ?_⟩
  · intro cos sys
    rw [updateEntities]
    exact gcRun_eq_filter _
  · decide

/-- C10: an entity alive before and after an `update_entities` call keeps its
id, genome reference, confidence, resource allocation, specialization scores
(and mutant flag); the final pool is the filter of the applied pool, whose
entry `j` differs from the pre-update entity `j` only in buffered fields and
the evaluation counters. -/
theorem c10_frame (cos : HVec → HVec → ℚ) (sys : System) (j : Nat)
    (h : j < sys.pool.length) :
    frameEq ((updateApplied cos sys).getD j default) (sys.pool.getD j default)
    ∧ (updateEntities cos sys).pool
        = (updateApplied cos sys).filter (fun e => !e.marked_for_gc) := by
  constructor
  · rw [updateApplied_getD cos sys j h]
    exact frameEq_trans (mergeEnt_frameEq _ _)
      (preservedEq_frameEq (updateEval_preserves cos sys j h))
  · rw [updateEntities]
    exact gcRun_eq_filter _

theorem c10_frame_witness :
    0 < sysC1.pool.length
    ∧ (frameEq ((updateApplied cos0 sysC1).getD 0 default) (sysC1.pool.getD 0 default)
        ∧ (updateEntities cos0 sysC1).pool
            = (updateApplied cos0 sysC1).filter (fun e => !e.marked_for_gc)) :=
  ⟨by decide, c10_frame cos0 sysC1 0 (by decide)⟩

/-- C4, counterexample.  From three live entities with ids 0,1,2, one update
collects the middle one (age 1501 > 1000, fitness 0 < 50), compaction shifts
id 2 to index 1, and the next `spawn_entity` assigns the new entity id
`active_entity_count = 2`: the live ids become [0, 2, 2], not pairwise
distinct. -/
theorem c4_counterexample :
    ((spawnOp (updateEntities cos0 sysC4) zeroVec 0).pool.map (fun e => e.id)) = [0, 2, 2]
    ∧ ¬ (((spawnOp (updateEntities cos0 sysC4) zeroVec 0).pool.map (fun e => e.id)).Nodup) := by
  constructor
  · decide
  · intro hc
    rw [show ((spawnOp (updateEntities cos0 sysC4) zeroVec 0).pool.map (fun e => e.id))
        = [0, 2, 2] from by decide] at hc
    simp at hc

/-- C4, amended: an entity id equals the slot index at spawn time and never
changes while the entity stays alive — through evaluation, apply and
compaction, and through later spawns — but ids of live entities are not
pairwise distinct in every reachable state: after a compaction, a later spawn
can duplicate a live id (the spec itself notes ids are reused). -/
theorem c4_amended :
    (∀ (cos : HVec → HVec → ℚ) (sys : System) (j : Nat), j < sys.pool.length →
      ((updateApplied cos sys).getD j default).id = (sys.pool.getD j default).id)
    ∧ (∀ (cos : HVec → HVec → ℚ) (sys : System),
        ((updateEntities cos sys).pool).Sublist (updateApplied cos sys))
    ∧ (∀ (sys : System) (tv : HVec) (pid : Nat) (j : Nat), j < sys.pool.length →
        (spawnOp sys tv pid).pool.getD j default = sys.pool.getD j default)
    ∧ (∀ (sys : System) (tv : HVec) (pid : Nat), sys.pool.length < MAX_ENTITIES →
        ((spawnOp sys tv pid).pool.getD sys.pool.length default).id = sys.pool.length) := by
  refine ⟨?_, ?_, ?_, ?_⟩
  · intro cos sys j h
    rw [updateApplied_getD cos sys j h]
    exact ((updateEval_preserves cos sys j h).1)
  · intro cos sys
    rw [updateEntities]
    rw [gcRun_eq_filter]
    exact List.filter_sublist _
  · intro sys tv pid j h
    rw [spawnOp]
    by_cases hfull : MAX_ENTITIES ≤ sys.pool.length
    · simp [spawnEntity, hfull]
    · simp only [spawnEntity, if_neg hfull]
      exact getD_append_left _ _ _ _ h
  · intro sys tv pid h
    rw [spawnOp]
    simp only [spawnEntity, if_neg (Nat.not_le.mpr h)]
    rw [List.getD_eq_getElem?_getD, List.getElem?_append_right (Nat.le_refl _)]
    simp

theorem c4_amended_witness :
    (0 < sysC1.pool.length
      ∧ ((updateApplied cos0 sysC1).getD 0 default).id = (sysC1.pool.getD 0 default).id)
    ∧ (0 < sysC4.pool.length
      ∧ (spawnOp sysC4 zeroVec 0).pool.getD 0 default = sysC4.pool.getD 0 default)
    ∧ (sysC4.pool.length < MAX_ENTITIES
      ∧ ((spawnOp sysC4 zeroVec 0).pool.getD sysC4.pool.length default).id
          = sysC4.pool.length) :=
  ⟨⟨by decide, c4_amended.1 cos0 sysC1 0 (by decide)⟩,
   ⟨by decide, c4_amended.2.2.1 sysC4 zeroVec 0 0 (by decide)⟩,
   ⟨by decide, c4_amended.2.2.2 sysC4 zeroVec 0 (by decide)⟩⟩

set_option maxRecDepth 200000 in
/-- C5, counterexample.  In `sysC5` (ring A A A D, all states the
dormant-trait vector, tick 1) entity 1 spawns the child at index 4; the
mutation flips dimension `1 mod 512 = 1`, but the dormant-trait vector is
zero there, so the child state vector is (numerically) equal to the parent
state vector: it does not differ from the parent in exactly one dimension. -/
theorem c5_counterexample :
    (updateEntities cos0 sysC5).pool.length = 5
    ∧ ((updateEntities cos0 sysC5).pool.getD 4 default).is_mutant = true
    ∧ ((updateEntities cos0 sysC5).pool.getD 4 default).state.data
        = (sysC5.pool.getD 1 default).state.data
    ∧ sysC5.ts = 1
    ∧ (updateEntities cos0 sysC5).ts = 1 := by
  decide

/-- C5, amended: the spawned child state equals the parent state except that
the component at index `t mod 512` (tick `t` read at the mutation point) is
negated; the child state therefore differs from the parent state exactly when
that component is non-zero (negating a zero component leaves the vectors
numerically equal; in C the flip of a `0.0f` component produces `-0.0f`,
which compares equal to `0.0f`). -/
theorem c5_amended :
    (∀ (parent base : Entity) (ts i : Nat),
      (childOf parent base ts).state.data.getD i 0
        = (if i = ts % HOLOGRAPHIC_DIMENSIONS then -(parent.state.data.getD i 0)
           else parent.state.data.getD i 0))
    ∧ (∀ (parent base : Entity) (ts : Nat),
        parent.state.data.length = HOLOGRAPHIC_DIMENSIONS →
        ((childOf parent base ts).state.data = parent.state.data
          ↔ parent.state.data.getD (ts % HOLOGRAPHIC_DIMENSIONS) 0 = 0)) := by
  constructor
  · intro parent base ts i
    simp only [childOf, mutateState]
    by_cases hid : i = ts % HOLOGRAPHIC_DIMENSIONS
    · rw [hid, if_pos rfl]
      by_cases hlen : ts % HOLOGRAPHIC_DIMENSIONS < parent.state.data.length
      · rw [getD_set_self _ _ _ _ hlen]
      · rw [List.set_eq_of_length_le (by omega)]
        have h0 : parent.state.data.getD (ts % HOLOGRAPHIC_DIMENSIONS) 0 = 0 := by
          rw [List.getD_eq_getElem?_getD, List.getElem?_eq_none (by omega)]
          rfl
        rw [h0]
        simp [h0]
    · rw [getD_set_ne _ _ _ _ _ (fun hc => hid hc.symm), if_neg hid]
  · intro parent base ts hlen
    simp only [childOf, mutateState]
    have hd : ts % HOLOGRAPHIC_DIMENSIONS < parent.state.data.length := by
      rw [hlen]
      exact Nat.mod_lt _ (by norm_num [HOLOGRAPHIC_DIMENSIONS])
    constructor
    · intro heq
      have h2 := congrArg (fun t => t.getD (ts % HOLOGRAPHIC_DIMENSIONS) 0) heq
      simp only at h2
      rw [getD_set_self _ _ _ _ hd] at h2
      omega
    · intro h0
      have hsome := List.getElem?_eq_getElem hd
      have hv : parent.state.data[ts % HOLOGRAPHIC_DIMENSIONS] = 0 := by
        rw [List.getD_eq_getElem?_getD, hsome] at h0
        simpa using h0
      rw [h0]
      apply List.ext_getElem?
      intro k
      by_cases hk : k = ts % HOLOGRAPHIC_DIMENSIONS
      · subst hk
        rw [List.getElem?_set_self hd, hsome, hv]
        norm_num
      · rw [List.getElem?_set_ne (fun hc => hk hc.symm)]

set_option maxRecDepth 200000 in
theorem c5_amended_witness :
    (dormantEnt 0 true).state.data.length = HOLOGRAPHIC_DIMENSIONS
    ∧ ((childOf (dormantEnt 0 true) baseEnt 1).state.data
          = (dormantEnt 0 true).state.data
        ↔ (dormantEnt 0 true).state.data.getD (1 % HOLOGRAPHIC_DIMENSIONS) 0 = 0) :=
  ⟨by decide, c5_amended.2 (dormantEnt 0 true) baseEnt 1 (by decide)⟩

set_option maxRecDepth 200000 in
/-- C8, counterexample.  For the single-byte input 0x02 the generation loop
takes the fill branch 53 times, but one of those draws (dimension 258) has
`seed % 2000 == 1000`, value `0.0`: `active_dimensions` is 53 while only 52
components are non-zero. -/
theorem c8_counterexample :
    (createVec c8Input).active_dimensions = 53
    ∧ (createVec c8Input).data.countP (fun x => decide (x ≠ 0)) = 52
    ∧ ¬ ((createVec c8Input).active_dimensions
          = (createVec c8Input).data.countP (fun x => decide (x ≠ 0))) := by
  decide

/-- C8, amended: `active_dimensions` counts the dimensions selected by the
fill rule (`seed % 10 == 0`); it equals the number of non-zero components
plus the number of selected draws whose value is exactly zero
(`seed % 2000 == 1000`), so the two agree exactly when no selected draw is
zero-valued. -/
theorem c8_amended (input : List Nat) :
    (createVec input).active_dimensions
      = (createVec input).data.countP (fun x => decide (x ≠ 0))
        + zeroFillCount (hash_data input) HOLOGRAPHIC_DIMENSIONS := by
  simp only [createVec]
  exact genData_count HOLOGRAPHIC_DIMENSIONS (hash_data input)

set_option maxRecDepth 200000 in
/-- C6: the GC mark set during an iteration is exactly
`age > 1000 && fitness < 50` over the entity values at the check (age already
incremented this cycle, fitness including this cycle bonuses), marks are
never cleared, marked entities never survive the collection pass; concretely
an entity reaching age 1001 with fitness 49 is collected by the same update
call and one with fitness 50 survives. -/
theorem c6_gc_threshold :
    (∀ (cos : HVec → HVec → ℚ) (st : EvalState) (i : Nat), i < st.pool.length →
      ((evalStep cos st i).pool.getD i default).marked_for_gc
        = (if 1000 < (st.pool.getD i default).age + 1
              ∧ ((evalStep cos st i).pool.getD i default).fitness_score < 50
           then true else (st.pool.getD i default).marked_for_gc))
    ∧ (∀ arr : List Entity, ∀ e ∈ gcRun arr, e.marked_for_gc = false)
    ∧ ((updateEntities cos0 sysC6a).pool.map fun e => e.id) = [0, 2]
    ∧ ((updateEntities cos0 sysC6b).pool.map fun e => e.id) = [0, 1, 2] := by
  refine ⟨?_, ?_, by decide, by decide⟩
  · intro cos st i h
    simp only [evalStep]
    rw [getD_append_left _ _ _ _ (by simpa using h), getD_set_self _ _ _ _ h]
  · intro arr e he
    rw [gcRun_eq_filter] at he
    have h2 := (List.mem_filter.mp he).2
    simpa using h2

set_option maxRecDepth 200000 in
theorem c6_gc_threshold_witness :
    (1 < (initEvalState sysC6a).pool.length
      ∧ ((evalStep cos0 (initEvalState sysC6a) 1).pool.getD 1 default).marked_for_gc
          = (if 1000 < ((initEvalState sysC6a).pool.getD 1 default).age + 1
                ∧ ((evalStep cos0 (initEvalState sysC6a) 1).pool.getD 1 default).fitness_score < 50
             then true else ((initEvalState sysC6a).pool.getD 1 default).marked_for_gc))
    ∧ (mkEnt 0 false ∈ gcRun [mkEnt 0 false]
        ∧ (mkEnt 0 false).marked_for_gc = false) := by
  have hmem : mkEnt 0 false ∈ gcRun [mkEnt 0 false] := by
    rw [gcRun_eq_filter]
    exact List.mem_filter.mpr ⟨List.mem_singleton_self _, rfl⟩
  exact ⟨⟨by decide, c6_gc_threshold.1 cos0 (initEvalState sysC6a) 1 (by decide)⟩,
    ⟨hmem, c6_gc_threshold.2.1 [mkEnt 0 false] (mkEnt 0 false) hmem⟩⟩

set_option maxRecDepth 200000 in
/-- C3, counterexample.  With 31 active entities every entity is active with
two active neighbors and `active_entity_count = 31 < 32`, so by the claim the
spawn rule should fire; the code guard is `active_entity_count <
MAX_ENTITIES - 1`, i.e. `< 31`, so no spawn happens: the pool stays at 31 and
no spawn counter moves. -/
theorem c3_counterexample :
    poolC3.length = 31
    ∧ (poolC3.getD 0 default).is_active = true
    ∧ nbrCount poolC3 0 = 2
    ∧ (updateEntities cos0 sysC3).pool.length = 31
    ∧ (updateEntities cos0 sysC3).pool.countP (fun e => decide (e.spawn_count ≠ 0)) = 0 := by
  decide

/-- C3, amended: during one evaluation iteration, a child is appended exactly
when the activate and sleep rules did not match, the entity is active, its
neighbor count is at least 2, and `active_entity_count < MAX_ENTITIES - 1 = 31`
(one slot more restrictive than the claimed `< 32`). -/
theorem c3_amended (cos : HVec → HVec → ℚ) (st : EvalState) (i : Nat)
    (h : i < st.pool.length) :
    (evalStep cos st i).pool.length
      = st.pool.length + (if c3cond st.pool i then 1 else 0) := by
  simp only [evalStep, List.length_append, List.length_set]
  by_cases h1 : (st.pool.getD i default).is_active = false ∧ 0 < nbrCount st.pool i
  · rw [if_pos h1]
    have hc3 : c3cond st.pool i = false := by
      simp only [c3cond]
      rw [h1.1]
      simp
    rw [hc3]
    simp
  · rw [if_neg h1]
    by_cases h2 : (st.pool.getD i default).is_active = true ∧ nbrCount st.pool i = 0
    · rw [if_pos h2]
      have hc3 : c3cond st.pool i = false := by
        simp only [c3cond]
        rw [h2.1, h2.2]
        simp
      rw [hc3]
      simp
    · rw [if_neg h2]
      by_cases h3 : (st.pool.getD i default).is_active = true ∧ 2 ≤ nbrCount st.pool i
          ∧ st.pool.length < MAX_ENTITIES - 1
      · rw [if_pos h3]
        have hsome := spawnEntity_child_isSome st.pool st.store st.ts default 0
          (by simp only [MAX_ENTITIES] at h3 ⊢; omega)
        obtain ⟨c0, hc0⟩ := Option.isSome_iff_exists.mp hsome
        rw [hc0]
        have hnz : ¬ nbrCount st.pool i = 0 := by omega
        have hc3 : c3cond st.pool i = true := by
          simp only [c3cond]
          rw [h3.1]
          simp [h3.2.1, h3.2.2, hnz]
        rw [hc3]
        simp
      · rw [if_neg h3]
        have hc3 : c3cond st.pool i = false := by
          cases hact : (st.pool.getD i default).is_active with
          | false =>
            simp only [c3cond]
            rw [hact]
            simp
          | true =>
            simp only [c3cond]
            rw [hact]
            by_cases hz : nbrCount st.pool i = 0
            · simp [hz]
            · by_cases hge : 2 ≤ nbrCount st.pool i
              · have hlt31 : ¬ st.pool.length < MAX_ENTITIES - 1 := fun hc =>
                  h3 ⟨hact, hge, hc⟩
                simp [hz, hge, hlt31]
              · simp [hz, hge]
        rw [hc3]
        simp

theorem c3_amended_witness :
    0 < (initEvalState sysC3).pool.length
    ∧ (evalStep cos0 (initEvalState sysC3) 0).pool.length
        = (initEvalState sysC3).pool.length
          + (if c3cond (initEvalState sysC3).pool 0 then 1 else 0) :=
  ⟨by decide, c3_amended cos0 (initEvalState sysC3) 0 (by decide)⟩

/-- C2: starting from an empty store, inserting 129 records
(`p0 :: mid ++ [plast]` with `mid.length = 127`) with pairwise distinct input
signatures leaves exactly 128 records; the first inserted signature is no
longer retrievable and the most recently inserted one retrieves its output
vector. -/
theorem c2_store_eviction (p0 plast : HVec × HVec) (mid : List (HVec × HVec))
    (hmid : mid.length = 127)
    (hnd : (((p0 :: (mid ++ [plast])).map (fun p => p.1.hash_signature))).Nodup) :
    (insertAll [] 0 (p0 :: (mid ++ [plast]))).1.length = 128
    ∧ retrieve (insertAll [] 0 (p0 :: (mid ++ [plast]))).1 p0.1.hash_signature = none
    ∧ retrieve (insertAll [] 0 (p0 :: (mid ++ [plast]))).1 plast.1.hash_signature
        = some plast.2 := by
  have h128 : insertAll [] 0 (p0 :: mid) = (entriesOf 0 (p0 :: mid), 0 + (p0 :: mid).length) :=
    insertAll_below_capacity (p0 :: mid) [] 0
      (by simp [MAX_MEMORY_ENTRIES, hmid])
  have hlenE : (entriesOf 0 (p0 :: mid)).length = 128 := by
    rw [entriesOf_length]
    simp [hmid]
  have hfold : insertAll [] 0 (p0 :: (mid ++ [plast]))
      = encodeStep (entriesOf 0 (p0 :: mid)) (0 + (p0 :: mid).length) plast.1 plast.2 := by
    have hsplit : (p0 :: (mid ++ [plast])) = (p0 :: mid) ++ [plast] := by simp
    rw [hsplit]
    simp only [insertAll, List.foldl_append]
    rw [show List.foldl (fun st p => encodeStep st.1 st.2 p.1 p.2) (([] : List MemoryEntry), 0)
        (p0 :: mid) = (entriesOf 0 (p0 :: mid), 0 + (p0 :: mid).length) from h128]
    simp [insertAll]
  have hevict : (insertAll [] 0 (p0 :: (mid ++ [plast]))).1
      = entriesOf 1 mid ++ [⟨plast.1, plast.2, 0 + (p0 :: mid).length, true⟩] := by
    rw [hfold]
    simp only [encodeStep]
    rw [if_pos (by rw [hlenE]; simp [MAX_MEMORY_ENTRIES])]
    simp [entriesOf]
  have hsig0 : p0.1.hash_signature ∉
      (mid ++ [plast]).map (fun p => p.1.hash_signature) := by
    simp only [List.map_cons, List.nodup_cons] at hnd
    exact hnd.1
  refine ⟨?_, ?_, ?_⟩
  · rw [hevict]
    simp only [List.length_append, List.length_cons, List.length_nil, entriesOf_length]
    simp [hmid]
  · rw [hevict]
    simp only [retrieve]
    rw [Option.map_eq_none', List.find?_eq_none]
    intro e he
    rw [List.mem_reverse] at he
    rcases List.mem_append.mp he with he2 | he2
    · have hsigmem : e.input_pattern.hash_signature ∈
          (entriesOf 1 mid).map (fun x => x.input_pattern.hash_signature) :=
        List.mem_map_of_mem _ he2
      rw [entriesOf_sigs] at hsigmem
      have hneq : e.input_pattern.hash_signature ≠ p0.1.hash_signature := by
        intro hc
        apply hsig0
        rw [← hc]
        rw [List.map_append]
        exact List.mem_append_left _ hsigmem
      simp [hneq]
    · have he3 : e = ⟨plast.1, plast.2, 0 + (p0 :: mid).length, true⟩ :=
        List.mem_singleton.mp he2
      have hneq : e.input_pattern.hash_signature ≠ p0.1.hash_signature := by
        rw [he3]
        intro hc
        apply hsig0
        rw [← hc]
        rw [List.map_append]
        refine List.mem_append_right _ ?_
        simp
      simp [hneq]
  · rw [hevict]
    simp only [retrieve]
    rw [List.reverse_append]
    simp only [List.reverse_cons, List.reverse_nil, List.nil_append, List.singleton_append]
    rw [List.find?_cons_of_pos _ (by simp)]
    rfl

set_option maxRecDepth 200000 in
theorem c2_store_eviction_witness :
    (((List.range 127).map (fun k => ((mkV (k + 1), mkV (k + 1)) : HVec × HVec))).length = 127
      ∧ ((((mkV 0, mkV 0) :: (((List.range 127).map
            (fun k => ((mkV (k + 1), mkV (k + 1)) : HVec × HVec)))
              ++ [(mkV 128, mkV 128)])).map (fun p => p.1.hash_signature))).Nodup)
    ∧ retrieve (insertAll [] 0 ((mkV 0, mkV 0) :: (((List.range 127).map
          (fun k => ((mkV (k + 1), mkV (k + 1)) : HVec × HVec)))
            ++ [(mkV 128, mkV 128)]))).1 (mkV 0).hash_signature = none := by
  have hl : ((List.range 127).map
      (fun k => ((mkV (k + 1), mkV (k + 1)) : HVec × HVec))).length = 127 := by decide
  have hnd : ((((mkV 0, mkV 0) :: (((List.range 127).map
        (fun k => ((mkV (k + 1), mkV (k + 1)) : HVec × HVec)))
          ++ [(mkV 128, mkV 128)])).map (fun p => p.1.hash_signature))).Nodup := by decide
  exact ⟨⟨hl, hnd⟩,
    (c2_store_eviction (mkV 0, mkV 0) (mkV 128, mkV 128) _ hl hnd).2.1⟩

end Holo
